import Mathlib

/-!
Verification development for `aeolis/shear.py` (class `WindShear`): a shallow
embedding of the program's data model and operations, and proofs settling the
frozen claims about it.

Conventions of the embedding:

* 2D numpy arrays of shape `(ny, nx)` are total functions `Fin ny → Fin nx → ℝ`
  (`Mat ny nx`); complex arrays are `CMat ny nx`.  Machine floats are modelled
  by real numbers, so transcendental identities (trigonometric periodicity,
  values of `cos`/`sin` at right angles, properties of `exp`) hold exactly.
* The module is assumed to import numpy as `np`, as everywhere in the
  repository; `np.*` calls are embedded by their documented mathematical
  semantics.
* External library routines whose numerics are not part of this repository
  (scipy's scattered cubic interpolation `griddata`, `scipy.special.jn` Bessel
  functions, the complex square root, NaN detection on interpolated floats)
  enter the embedding as explicit function parameters: every theorem holds for
  all of them.
* Python statements that can raise are embedded with `Except PyErr`.  A raised
  exception propagates, and the object state at the moment of the raise is
  returned alongside the error (CPython mutates dictionaries in place, so the
  writes performed before the raise survive).
-/

namespace AeolisShear

/-- A 2D array of shape `(ny, nx)` holding real values (a numpy float array). -/
abbrev Mat (ny nx : ℕ) : Type := Fin ny → Fin nx → ℝ

/-- A 2D array of shape `(ny, nx)` holding complex values. -/
abbrev CMat (ny nx : ℕ) : Type := Fin ny → Fin nx → ℂ

/-- Python identifiers that appear in the raised exceptions of `shear.py`. -/
inductive PyName
  | x
  | y
  | z
  | dtaux
  | dtauy
deriving DecidableEq

/-- The Python exceptions the embedded methods can raise. -/
inductive PyErr
  | nameError (n : PyName)
  | keyError (n : PyName)
  | typeError
  | valueError
deriving DecidableEq

/-- Method `WindShear.rotate(x, y, alpha, origin)`, shear.py lines 324-340.

The source subtracts the origin, builds `R = [[cos a, -sin a], [sin a, cos a]]`
with `a = alpha/180*pi`, and multiplies the matrix of ROW vectors `[xr yr]` on
the LEFT of `R`.  Entrywise, column 0 of the product is `xr*cos a + yr*sin a`
and column 1 is `xr*(-sin a) + yr*cos a`.  The `reshape((-1,1))` /
`reshape(x.shape)` round trip makes the whole operation pointwise, which the
function type records; the final `+ origin` restores the pivot. -/
noncomputable def rotate {m n : ℕ} (x y : Mat m n) (alpha : ℝ) (origin : ℝ × ℝ) :
    Mat m n × Mat m n :=
  (fun i j => (x i j - origin.1) * Real.cos (alpha / 180 * Real.pi)
      + (y i j - origin.2) * Real.sin (alpha / 180 * Real.pi) + origin.1,
   fun i j => (x i j - origin.1) * (-Real.sin (alpha / 180 * Real.pi))
      + (y i j - origin.2) * Real.cos (alpha / 180 * Real.pi) + origin.2)

/-- Method `WindShear.get_borders(x)`, shear.py lines 313-321, for an array of shape
`(ny, nx)` presented as a total function on ℕ-indices.  The five concatenated
numpy slices are, in order:

* `x[0,:]`        : row 0, columns `0 .. nx-1`;
* `x[1:-1,-1]`    : last column, rows `1 .. ny-2`;
* `x[-1,::-1]`    : last row reversed, columns `nx-1 .. 0`;
* `x[-1:1:-1,0]`  : column 0, rows `ny-1` DOWN TO `2` (start `-1` inclusive,
                    stop `1` exclusive, step `-1`), i.e. the bottom-left corner
                    again, then upwards, stopping before row 1;
* `x[0,:1]`       : the single element `x[0,0]`. -/
def get_borders {α : Type} (ny nx : ℕ) (x : ℕ → ℕ → α) : List α :=
  ((List.range nx).map (fun j => x 0 j))
    ++ (((List.range (ny - 2)).map (fun i => x (i + 1) (nx - 1)))
      ++ (((List.range nx).map (fun j => x (ny - 1) (nx - 1 - j)))
        ++ (((List.range (ny - 2)).map (fun i => x (ny - 1 - i) 0))
          ++ [x 0 0])))

/-- The border sequence exactly as the claim words it: top row left to right,
right column top to bottom excluding corners, bottom row right to left, LEFT
COLUMN BOTTOM TO TOP EXCLUDING CORNERS (rows `ny-2` down to `1`), closing with
the first point repeated.  Written from the claim, to be compared with
`get_borders`, which is written from the source. -/
def get_bordersClaim {α : Type} (ny nx : ℕ) (x : ℕ → ℕ → α) : List α :=
  ((List.range nx).map (fun j => x 0 j))
    ++ (((List.range (ny - 2)).map (fun i => x (i + 1) (nx - 1)))
      ++ (((List.range nx).map (fun j => x (ny - 1) (nx - 1 - j)))
        ++ (((List.range (ny - 2)).map (fun i => x (ny - 2 - i) 0))
          ++ [x 0 0])))

/-- Method `WindShear.get_sigmoid(x)`, shear.py lines 234-252:
`1. / (1. + np.exp(-(self.buffer_width - x) / self.buffer_relaxation))`. -/
noncomputable def get_sigmoid (buffer_width buffer_relaxation x : ℝ) : ℝ :=
  1 / (1 + Real.exp (-(buffer_width - x) / buffer_relaxation))

/-- The signed index underlying `np.fft.fftfreq(n, d)`: entry `j` is `j` for
`j < (n+1)/2` (the non-negative frequencies `0, 1, ..., ceil(n/2)-1`) and
`j - n` (the negative frequencies) afterwards. -/
def fftfreqIdx (n : ℕ) (j : ℕ) : ℤ :=
  if j < (n + 1) / 2 then (j : ℤ) else (j : ℤ) - (n : ℤ)

/-- Entry `j` of `np.fft.fftfreq(n, d)`: the signed index divided by `n * d`. -/
noncomputable def fftfreq (n : ℕ) (d : ℝ) (j : ℕ) : ℝ :=
  (fftfreqIdx n j : ℝ) / ((n : ℝ) * d)

/-- The wavenumber array `kx` of shear.py line 188: an `(nx+1)`-point
`np.fft.fftfreq` axis with sample spacing `2*pi/(dx*nx)`, the zero-frequency
entry at index 0 dropped by `[1:]`, replicated over rows by `np.meshgrid`. -/
noncomputable def kxMat (ny nx : ℕ) (dx : ℝ) : Mat ny nx :=
  fun _ j => fftfreq (nx + 1) (2 * Real.pi / (dx * (nx : ℝ))) ((j : ℕ) + 1)

/-- The wavenumber array `ky` of shear.py line 189, replicated over columns. -/
noncomputable def kyMat (ny nx : ℕ) (dy : ℝ) : Mat ny nx :=
  fun i _ => fftfreq (ny + 1) (2 * Real.pi / (dy * (ny : ℝ))) ((i : ℕ) + 1)

/-- Wavenumber magnitude `k = np.sqrt(kx**2 + ky**2)`, shear.py line 192. -/
noncomputable def kMat (ny nx : ℕ) (dx dy : ℝ) : Mat ny nx :=
  fun i j => Real.sqrt ((kxMat ny nx dx i j) ^ 2 + (kyMat ny nx dy i j) ^ 2)

/-- The forward 2D discrete Fourier transform, numpy convention
(`np.fft.fft2`): no normalization, kernel `exp(-2*pi*I*(p*i/ny + q*j/nx))`. -/
noncomputable def fft2 {ny nx : ℕ} (z : Mat ny nx) : CMat ny nx :=
  fun p q => ∑ i : Fin ny, ∑ j : Fin nx,
    ((z i j : ℝ) : ℂ) * Complex.exp (-(2 * (Real.pi : ℂ) * Complex.I) *
      (((p : ℕ) : ℂ) * ((i : ℕ) : ℂ) / ((ny : ℕ) : ℂ)
        + ((q : ℕ) : ℂ) * ((j : ℕ) : ℂ) / ((nx : ℕ) : ℂ)))

/-- The inverse 2D discrete Fourier transform, numpy convention
(`np.fft.ifft2`): normalization `1/(ny*nx)`, positive kernel. -/
noncomputable def ifft2 {ny nx : ℕ} (a : CMat ny nx) : CMat ny nx :=
  fun i j => (1 / (((ny : ℕ) : ℂ) * ((nx : ℕ) : ℂ))) *
    ∑ p : Fin ny, ∑ q : Fin nx,
      a p q * Complex.exp ((2 * (Real.pi : ℂ) * Complex.I) *
        (((i : ℕ) : ℂ) * ((p : ℕ) : ℂ) / ((ny : ℕ) : ℂ)
          + ((j : ℕ) : ℂ) * ((q : ℕ) : ℂ) / ((nx : ℕ) : ℂ)))

/-- Negated elevation spectrum `hs = -np.fft.fft2(g['z'])`, shear.py line 190. -/
noncomputable def hsMat {ny nx : ℕ} (z : Mat ny nx) : CMat ny nx :=
  fun i j => -(fft2 z i j)

/-- Complex parameter `sigma = np.sqrt(1j * self.L / 4. * kx * self.z0 / self.l)`, shear.py
line 193, with the source's left-to-right grouping.  `csqrt` is numpy's
elementwise complex square root, passed in as a parameter. -/
noncomputable def sigmaMat (ny nx : ℕ) (csqrt : ℂ → ℂ) (L z0 l dx : ℝ) : CMat ny nx :=
  fun i j => csqrt (Complex.I * (L : ℂ) / 4 * ((kxMat ny nx dx i j : ℝ) : ℂ)
    * (z0 : ℂ) / (l : ℂ))

/-- The streamwise perturbation spectrum `dtaux_t`, shear.py lines 195-197,
transliterated with the source's left-to-right grouping:
`hs * kx**2 / k * 2 / u0**2 * (-1 + (2*np.log(l/z0) + k**2/kx**2) * sigma *
jn(1, 2*sigma) / jn(0, 2*sigma))`.  `J` is `scipy.special.jn` (Bessel function
of the first kind, by order), passed in as a parameter. -/
noncomputable def dtaux_t {ny nx : ℕ} (z : Mat ny nx) (dx dy L z0 l : ℝ)
    (J : ℕ → ℂ → ℂ) (csqrt : ℂ → ℂ) (u0 : ℝ) : CMat ny nx :=
  fun i j =>
    hsMat z i j * ((kxMat ny nx dx i j : ℝ) : ℂ) ^ 2 / ((kMat ny nx dx dy i j : ℝ) : ℂ)
        * 2 / (u0 : ℂ) ^ 2 *
      (-1 + (((2 * Real.log (l / z0)
              + (kMat ny nx dx dy i j) ^ 2 / (kxMat ny nx dx i j) ^ 2 : ℝ)) : ℂ)
          * sigmaMat ny nx csqrt L z0 l dx i j
          * J 1 (2 * sigmaMat ny nx csqrt L z0 l dx i j)
          / J 0 (2 * sigmaMat ny nx csqrt L z0 l dx i j))

/-- The cross-stream perturbation spectrum `dtauy_t`, shear.py lines 198-199:
`hs * kx * ky / k * 2 / u0**2 * 2 * np.sqrt(2) * sigma *
jn(1, 2 * np.sqrt(2) * sigma)`. -/
noncomputable def dtauy_t {ny nx : ℕ} (z : Mat ny nx) (dx dy L z0 l : ℝ)
    (J : ℕ → ℂ → ℂ) (csqrt : ℂ → ℂ) (u0 : ℝ) : CMat ny nx :=
  fun i j =>
    hsMat z i j * ((kxMat ny nx dx i j : ℝ) : ℂ) * ((kyMat ny nx dy i j : ℝ) : ℂ)
        / ((kMat ny nx dx dy i j : ℝ) : ℂ) * 2 / (u0 : ℂ) ^ 2 * 2
        * ((Real.sqrt 2 : ℝ) : ℂ) * sigmaMat ny nx csqrt L z0 l dx i j
        * J 1 (2 * ((Real.sqrt 2 : ℝ) : ℂ) * sigmaMat ny nx csqrt L z0 l dx i j)

/-- Method `WindShear.compute_shear(u0)`, shear.py lines 170-202, as a function of the
computational grid's elevation `z` (shape `(ny, nx)`), the grid spacings, the
model parameters, and the free-flow speed `u0`.  Returns the pair
`(dtaux, dtauy)` the method stores in `self.cgrid`.  The `u0 == 0` guard of
lines 182-185 returns zero arrays of `z`'s shape without touching the spectral
branch. -/
noncomputable def compute_shear {ny nx : ℕ} (z : Mat ny nx) (dx dy L z0 l : ℝ)
    (J : ℕ → ℂ → ℂ) (csqrt : ℂ → ℂ) (u0 : ℝ) : Mat ny nx × Mat ny nx :=
  if u0 = 0 then
    (fun _ _ => 0, fun _ _ => 0)
  else
    (fun i j => (ifft2 (dtaux_t z dx dy L z0 l J csqrt u0) i j).re,
     fun i j => (ifft2 (dtauy_t z dx dy L z0 l J csqrt u0) i j).re)

/-- The complex parameter sigma as the claim words it:
`sigma = sqrt(i * (L/4) * kx * z0 / l)`.  Written from the claim. -/
noncomputable def sigmaMatClaim (ny nx : ℕ) (csqrt : ℂ → ℂ) (L z0 l dx : ℝ) : CMat ny nx :=
  fun i j => csqrt (Complex.I * ((L : ℂ) / 4) * ((kxMat ny nx dx i j : ℝ) : ℂ)
    * (z0 : ℂ) / (l : ℂ))

/-- The streamwise spectrum as the claim words it:
`hs * kx^2/k * (2/u0^2) * (-1 + (2*ln(l/z0) + k^2/kx^2) * sigma * J1(2*sigma)
/ J0(2*sigma))`.  Written from the claim, to be compared with `dtaux_t`. -/
noncomputable def dtaux_tClaim {ny nx : ℕ} (z : Mat ny nx) (dx dy L z0 l : ℝ)
    (J : ℕ → ℂ → ℂ) (csqrt : ℂ → ℂ) (u0 : ℝ) : CMat ny nx :=
  fun i j =>
    hsMat z i j * (((kxMat ny nx dx i j : ℝ) : ℂ) ^ 2 / ((kMat ny nx dx dy i j : ℝ) : ℂ))
        * (2 / (u0 : ℂ) ^ 2) *
      (-1 + ((((2 * Real.log (l / z0) : ℝ)) : ℂ)
              + (((kMat ny nx dx dy i j) ^ 2 / (kxMat ny nx dx i j) ^ 2 : ℝ) : ℂ))
          * sigmaMatClaim ny nx csqrt L z0 l dx i j
          * J 1 (2 * sigmaMatClaim ny nx csqrt L z0 l dx i j)
          / J 0 (2 * sigmaMatClaim ny nx csqrt L z0 l dx i j))

/-- The cross-stream spectrum as the claim words it:
`hs * kx*ky/k * (2/u0^2) * 2*sqrt(2) * sigma * J1(2*sqrt(2)*sigma)`.
Written from the claim, to be compared with `dtauy_t`. -/
noncomputable def dtauy_tClaim {ny nx : ℕ} (z : Mat ny nx) (dx dy L z0 l : ℝ)
    (J : ℕ → ℂ → ℂ) (csqrt : ℂ → ℂ) (u0 : ℝ) : CMat ny nx :=
  fun i j =>
    hsMat z i j
        * (((kxMat ny nx dx i j : ℝ) : ℂ) * ((kyMat ny nx dy i j : ℝ) : ℂ)
            / ((kMat ny nx dx dy i j : ℝ) : ℂ))
        * (2 / (u0 : ℂ) ^ 2) * (2 * ((Real.sqrt 2 : ℝ) : ℂ))
        * sigmaMatClaim ny nx csqrt L z0 l dx i j
        * J 1 (2 * ((Real.sqrt 2 : ℝ) : ℂ) * sigmaMatClaim ny nx csqrt L z0 l dx i j)

/-- The state of a `WindShear` object.  `nyI × nxI` is the input grid's shape,
`nyC × nxC` the computational grid's.  The dictionaries `self.igrid` and
`self.cgrid` are records whose optional entries start absent (`none`), exactly
as the corresponding keys are absent from the Python dictionaries until first
written; reading an absent entry raises `KeyError`.  (The class-level
`igrid = {}` / `cgrid = {}` defaults are shadowed in `__init__` by fresh
instance dictionaries, lines 63-68, so per-instance state is accurate.) -/
structure ShearState (nyI nxI nyC nxC : ℕ) where
  igx : Mat nyI nxI
  igy : Mat nyI nxI
  igz : Mat nyI nxI
  ig_dtaux : Option (Mat nyI nxI)
  ig_dtauy : Option (Mat nyI nxI)
  cg_dx : ℝ
  cg_dy : ℝ
  cg_xi : Mat nyC nxC
  cg_yi : Mat nyC nxC
  cg_x : Option (Mat nyC nxC)
  cg_y : Option (Mat nyC nxC)
  cg_z : Option (Mat nyC nxC)
  cg_dtaux : Option (Mat nyC nxC)
  cg_dtauy : Option (Mat nyC nxC)
  x0 : ℝ
  y0 : ℝ
  D : ℝ
  buffer_width : ℝ
  buffer_relaxation : ℝ
  L : ℝ
  z0 : ℝ
  l : ℝ

/-- Modelled from the spec: `interpolate_grid` (called at shear.py line 151) is
the repository's scattered-data cubic interpolation from the input grid onto
the rotated computational coordinates (spec section 4.4); its floating-point
numerics live outside `src/`, so it enters the embedding as an arbitrary
function of the five argument arrays, of this type. -/
def InterpIC (nyI nxI nyC nxC : ℕ) : Type :=
  Mat nyI nxI → Mat nyI nxI → Mat nyI nxI → Mat nyC nxC → Mat nyC nxC → Mat nyC nxC

/-- The scattered-data cubic interpolation `WindShear.interpolate` (shear.py
lines 343-354, a direct wrapper around `scipy.interpolate.griddata`), mapping a
field on the computational grid onto the input grid; scipy's numerics enter the
embedding as an arbitrary function of this type. -/
def InterpCI (nyI nxI nyC nxC : ℕ) : Type :=
  Mat nyC nxC → Mat nyC nxC → Mat nyC nxC → Mat nyI nxI → Mat nyI nxI → Mat nyI nxI

/-- Modelled from the spec: `np.isnan` applied to the interpolated elevation
(shear.py line 159).  Undefinedness (NaN) of the cubic interpolation outside
the input grid's convex hull is a floating-point artifact with no counterpart
on ℝ, so the NaN mask enters the embedding as an arbitrary predicate on the
interpolated array. -/
def IsNanP (nyC nxC : ℕ) : Type := Mat nyC nxC → Fin nyC → Fin nxC → Bool

/-- Present a `Mat` as a total function on ℕ-indices (out-of-range reads give
0; `get_borders` only reads in range). -/
def toFun2 {m n : ℕ} (x : Mat m n) : ℕ → ℕ → ℝ := fun i j =>
  if h : i < m ∧ j < n then x ⟨i, h.1⟩ ⟨j, h.2⟩ else 0

/-- Method `WindShear.populate_computational_grid(alpha)`, shear.py lines 132-167.

Lines 150-153 rotate the reference grid about `(x0, y0)`, interpolate the
input topography onto it, and store `z`, `x`, `y` into `self.cgrid`.  Lines
155-159 compute the three border polylines and the NaN mask.  Line 160,

  `argmin = lambda x: np.argmin(x), np.min(x)` ,

is a tuple display: the lambda body is only `np.argmin(x)` (a lambda body ends
at the comma), and the second component `np.min(x)` is evaluated immediately.
No name `x` is bound in the method scope (locals are `self, alpha, gc, gi, xc,
yc, px, py, pz, ix`), in the module scope, or in builtins, so the statement
raises `NameError: name 'x' is not defined` on every invocation, before the
fill of lines 161-167 can run.  (Even with the intended parenthesized lambda,
`argmin` would be a tuple here, so calling it on line 161 would raise
`TypeError`; and with an empty NaN mask, `i, d = zip(*[])` on line 161 would
raise `ValueError`.)  The state carries the writes of lines 151-153. -/
noncomputable def populateStep {nyI nxI nyC nxC : ℕ} (interpIC : InterpIC nyI nxI nyC nxC)
    (isnanP : IsNanP nyC nxC) (s : ShearState nyI nxI nyC nxC) (alpha : ℝ) :
    Except PyErr Unit × ShearState nyI nxI nyC nxC :=
  let xc := (rotate s.cg_xi s.cg_yi alpha (s.x0, s.y0)).1
  let yc := (rotate s.cg_xi s.cg_yi alpha (s.x0, s.y0)).2
  let zc := interpIC s.igx s.igy s.igz xc yc
  let s1 := { s with cg_z := some zc, cg_x := some xc, cg_y := some yc }
  let px := get_borders nyI nxI (toFun2 s.igx)
  let py := get_borders nyI nxI (toFun2 s.igy)
  let pz := get_borders nyI nxI (toFun2 s.igz)
  let ix := isnanP zc
  (Except.error (PyErr.nameError PyName.x), s1)

/-- The `self.compute_shear(u0)` call inside `__call__` (shear.py line 93):
reads `self.cgrid['z']` (raising `KeyError` when the key is absent) and stores
the two perturbation arrays into `self.cgrid`. -/
noncomputable def computeShearStep {nyI nxI nyC nxC : ℕ} (J : ℕ → ℂ → ℂ) (csqrt : ℂ → ℂ)
    (s : ShearState nyI nxI nyC nxC) (u0 : ℝ) :
    Except PyErr Unit × ShearState nyI nxI nyC nxC :=
  match s.cg_z with
  | none => (Except.error (PyErr.keyError PyName.z), s)
  | some zc =>
    (Except.ok (),
      { s with
          cg_dtaux := some (compute_shear zc s.cg_dx s.cg_dy s.L s.z0 s.l J csqrt u0).1
          cg_dtauy := some (compute_shear zc s.cg_dx s.cg_dy s.L s.z0 s.l J csqrt u0).2 })

/-- Method `WindShear.__call__(u0, udir)`, shear.py lines 80-114, with exceptions
propagated and the object state at the raise returned alongside.  After the
populate and compute stages, line 98 rotates the perturbation vectors by
`udir` about the default origin `(0, 0)`, lines 104-105 store them in
`self.cgrid`, and lines 109-110 interpolate them onto the input grid and
attach them to `self.igrid`.  All stages after `populateStep` are unreachable
in the source as written, because `populateStep` always raises (see its
docstring); they are embedded nonetheless, following the source line by
line. -/
noncomputable def callStep {nyI nxI nyC nxC : ℕ} (interpIC : InterpIC nyI nxI nyC nxC)
    (interpCI : InterpCI nyI nxI nyC nxC) (isnanP : IsNanP nyC nxC)
    (J : ℕ → ℂ → ℂ) (csqrt : ℂ → ℂ) (s : ShearState nyI nxI nyC nxC) (u0 udir : ℝ) :
    Except PyErr Unit × ShearState nyI nxI nyC nxC :=
  match populateStep interpIC isnanP s udir with
  | (Except.error e, s1) => (Except.error e, s1)
  | (Except.ok _, s1) =>
    match computeShearStep J csqrt s1 u0 with
    | (Except.error e, s2) => (Except.error e, s2)
    | (Except.ok _, s2) =>
      match s2.cg_dtaux, s2.cg_dtauy with
      | none, _ => (Except.error (PyErr.keyError PyName.dtaux), s2)
      | some _, none => (Except.error (PyErr.keyError PyName.dtauy), s2)
      | some dtx, some dty =>
        let dtxr := (rotate dtx dty udir (0, 0)).1
        let dtyr := (rotate dtx dty udir (0, 0)).2
        let s3 := { s2 with cg_dtaux := some dtxr, cg_dtauy := some dtyr }
        match s3.cg_x, s3.cg_y with
        | none, _ => (Except.error (PyErr.keyError PyName.x), s3)
        | some _, none => (Except.error (PyErr.keyError PyName.y), s3)
        | some cx, some cy =>
          (Except.ok (),
            { s3 with
                ig_dtaux := some (interpCI cx cy dtxr s3.igx s3.igy)
                ig_dtauy := some (interpCI cx cy dtyr s3.igx s3.igy) })

/-- Method `WindShear.get_shear()`, shear.py lines 117-129: reads
`self.igrid['dtaux']` and then `self.igrid['dtauy']`; a missing key raises
`KeyError` (the `'dtaux'` lookup is evaluated first). -/
def getShearStep {nyI nxI nyC nxC : ℕ} (s : ShearState nyI nxI nyC nxC) :
    Except PyErr (Mat nyI nxI × Mat nyI nxI) :=
  match s.ig_dtaux with
  | none => Except.error (PyErr.keyError PyName.dtaux)
  | some a =>
    match s.ig_dtauy with
    | none => Except.error (PyErr.keyError PyName.dtauy)
    | some b => Except.ok (a, b)

/-- Mean (`np.mean`) of a 2D array: the sum of the entries over the size. -/
noncomputable def meanM {m n : ℕ} (x : Mat m n) : ℝ :=
  (∑ i : Fin m, ∑ j : Fin n, x i j) / ((m : ℝ) * (n : ℝ))

/-- Maximum (`.max()`) of a (nonempty) 2D array, as the supremum of its finite range. -/
noncomputable def maxM {m n : ℕ} (x : Mat m n) : ℝ :=
  sSup (Set.range (fun p : Fin m × Fin n => x p.1 p.2))

/-- Minimum (`.min()`) of a (nonempty) 2D array. -/
noncomputable def minM {m n : ℕ} (x : Mat m n) : ℝ :=
  sInf (Set.range (fun p : Fin m × Fin n => x p.1 p.2))

/-- The length of `np.arange(a, b, d)` for a positive step over exact reals:
`ceil((b - a) / d)` entries. -/
noncomputable def arangeLen (a b d : ℝ) : ℕ := (⌈(b - a) / d⌉).toNat

/-- Entry `i` of `np.arange(a, b, d)`: `a + i*d`. -/
noncomputable def arangeF (a d : ℝ) (i : ℕ) : ℝ := a + (i : ℝ) * d

/-- The lower bound `np.floor(vmin / d) * d` used by `get_exact_grid`
(shear.py lines 304-307). -/
noncomputable def exactLo (v d : ℝ) : ℝ := ⌊v / d⌋ * d

/-- The upper bound `np.ceil(vmax / d) * d` used by `get_exact_grid`. -/
noncomputable def exactHi (v d : ℝ) : ℝ := ⌈v / d⌉ * d

/-- The number of points of one axis of `get_exact_grid`. -/
noncomputable def exactN (vmin vmax d : ℝ) : ℕ :=
  arangeLen (exactLo vmin d) (exactHi vmax d) d

/-- A constructed `WindShear` object: the computational grid's shape (fixed by
`get_exact_grid`) together with the state. -/
structure WindShearObj (nyI nxI : ℕ) where
  nyC : ℕ
  nxC : ℕ
  state : ShearState nyI nxI nyC nxC

/-- Constructor `WindShear.__init__` (shear.py lines 27-77) followed by
`set_computational_grid` (lines 205-231): stores the input grid (only the
keys `x`, `y`, `z`!), the spacings, the buffer parameters (with the
`buffer_width / 4` default for the relaxation), the model parameters, the grid
center `(x0, y0)`, the size `D` (bounding-box diagonal plus twice the buffer
width), and the meshgrid of the two `np.arange` axes of `get_exact_grid`
(lines 300-310) as the unrotated reference grid `(xi, yi)`. -/
noncomputable def windShearInit {nyI nxI : ℕ} (x y z : Mat nyI nxI) (dx dy : ℝ)
    (buffer_width : ℝ) (buffer_relaxation : Option ℝ) (L z0 l : ℝ) :
    WindShearObj nyI nxI :=
  let brel := buffer_relaxation.getD (buffer_width / 4)
  let x0 := meanM x
  let y0 := meanM y
  let D := Real.sqrt ((maxM x - minM x) ^ 2 + (maxM y - minM y) ^ 2) + 2 * buffer_width
  { nyC := exactN (y0 - D / 2) (y0 + D / 2) dy
    nxC := exactN (x0 - D / 2) (x0 + D / 2) dx
    state :=
      { igx := x
        igy := y
        igz := z
        ig_dtaux := none
        ig_dtauy := none
        cg_dx := dx
        cg_dy := dy
        cg_xi := fun _ j => arangeF (exactLo (x0 - D / 2) dx) dx (j : ℕ)
        cg_yi := fun i _ => arangeF (exactLo (y0 - D / 2) dy) dy (i : ℕ)
        cg_x := none
        cg_y := none
        cg_z := none
        cg_dtaux := none
        cg_dtauy := none
        x0 := x0
        y0 := y0
        D := D
        buffer_width := buffer_width
        buffer_relaxation := brel
        L := L
        z0 := z0
        l := l } }

/-- A concrete 3×3 integer grid (entry `(i,j)` is `3*i + j`) used to exhibit
counterexamples about `get_borders`. -/
def ex3 : ℕ → ℕ → ℤ := fun i j => 3 * (i : ℤ) + (j : ℤ)

/-- A concrete 2×2 integer grid (entry `(i,j)` is `2*i + j`). -/
def ex2 : ℕ → ℕ → ℤ := fun i j => 2 * (i : ℤ) + (j : ℤ)

/-- A concrete 1×1 elevation array, for witnesses. -/
noncomputable def zW : Mat 1 1 := fun _ _ => 1

/-- A concrete stand-in for `scipy.special.jn`, for witnesses. -/
def jW : ℕ → ℂ → ℂ := fun _ w => w

/-- A concrete stand-in for the complex square root, for witnesses. -/
def csW : ℂ → ℂ := fun w => w

/-! ## Theorems -/

/-- C1 (code bug): the fill step of `populate_computational_grid` never
executes.  For every interpolation routine, NaN mask, object state and
rotation angle, the method raises `NameError: name 'x' is not defined` at
shear.py line 160 — the right-hand side `lambda x: np.argmin(x), np.min(x)` is
a tuple whose second component evaluates the unbound name `x` — so no
undefined cell is ever assigned `pz[i] * get_sigmoid(d)` (line 167), and the
no-NaN case is not a no-op but the same error. -/
theorem populate_fill_raises_nameError (nyI nxI nyC nxC : ℕ)
    (interpIC : InterpIC nyI nxI nyC nxC) (isnanP : IsNanP nyC nxC)
    (s : ShearState nyI nxI nyC nxC) (alpha : ℝ) :
    (populateStep interpIC isnanP s alpha).1 = Except.error (PyErr.nameError PyName.x) :=
  rfl

/-- C3: `compute_shear` called with speed exactly `0` takes the guard of
shear.py lines 182-185: it returns the all-zero pair of the elevation's shape
without evaluating the spectral branch, and — at the `__call__` step level,
for any state whose `cgrid` holds an elevation — it stores those zeros and
returns normally (`Except.ok`), raising nothing. -/
theorem compute_shear_zero_speed {ny nx nyI nxI : ℕ} (z : Mat ny nx)
    (dx dy L z0 l : ℝ) (J : ℕ → ℂ → ℂ) (csqrt : ℂ → ℂ)
    (s : ShearState nyI nxI ny nx) (zc : Mat ny nx) :
    compute_shear z dx dy L z0 l J csqrt 0 = (fun _ _ => 0, fun _ _ => 0) ∧
    computeShearStep J csqrt { s with cg_z := some zc } 0 =
      (Except.ok (),
        { s with
            cg_z := some zc
            cg_dtaux := some (fun _ _ => 0)
            cg_dtauy := some (fun _ _ => 0) }) := by
  have h0 : ∀ (zz : Mat ny nx) (a b c d e : ℝ),
      compute_shear zz a b c d e J csqrt 0 = (fun _ _ => 0, fun _ _ => 0) := by
    intro zz a b c d e
    unfold compute_shear
    rw [if_pos rfl]
  refine ⟨h0 z dx dy L z0 l, ?_⟩
  show (Except.ok (),
      { s with
          cg_z := some zc
          cg_dtaux := some (compute_shear zc s.cg_dx s.cg_dy s.L s.z0 s.l J csqrt 0).1
          cg_dtauy := some (compute_shear zc s.cg_dx s.cg_dy s.L s.z0 s.l J csqrt 0).2 }) = _
  rw [h0 zc]

/-- C8 (code bug): no invocation of `__call__` mutates the construction-time
state — the input grid's `x`, `y`, `z`, the unrotated reference grid
`(xi, yi)`, the pivot `(x0, y0)`, the spacings, the buffer and model
parameters are all returned unchanged — and (exhibiting the bug) the
invocation also leaves `igrid['dtaux']` and `igrid['dtauy']` unchanged: the
perturbation fields are never attached, because the call raises at shear.py
line 160 after writing only the working fields `cgrid['x']`, `cgrid['y']`,
`cgrid['z']`. -/
theorem call_preserves_construction_state {nyI nxI nyC nxC : ℕ}
    (interpIC : InterpIC nyI nxI nyC nxC) (interpCI : InterpCI nyI nxI nyC nxC)
    (isnanP : IsNanP nyC nxC) (J : ℕ → ℂ → ℂ) (csqrt : ℂ → ℂ)
    (s : ShearState nyI nxI nyC nxC) (u0 udir : ℝ) :
    (callStep interpIC interpCI isnanP J csqrt s u0 udir).2.igx = s.igx ∧
    (callStep interpIC interpCI isnanP J csqrt s u0 udir).2.igy = s.igy ∧
    (callStep interpIC interpCI isnanP J csqrt s u0 udir).2.igz = s.igz ∧
    (callStep interpIC interpCI isnanP J csqrt s u0 udir).2.cg_xi = s.cg_xi ∧
    (callStep interpIC interpCI isnanP J csqrt s u0 udir).2.cg_yi = s.cg_yi ∧
    (callStep interpIC interpCI isnanP J csqrt s u0 udir).2.x0 = s.x0 ∧
    (callStep interpIC interpCI isnanP J csqrt s u0 udir).2.y0 = s.y0 ∧
    (callStep interpIC interpCI isnanP J csqrt s u0 udir).2.D = s.D ∧
    (callStep interpIC interpCI isnanP J csqrt s u0 udir).2.cg_dx = s.cg_dx ∧
    (callStep interpIC interpCI isnanP J csqrt s u0 udir).2.cg_dy = s.cg_dy ∧
    (callStep interpIC interpCI isnanP J csqrt s u0 udir).2.buffer_width = s.buffer_width ∧
    (callStep interpIC interpCI isnanP J csqrt s u0 udir).2.buffer_relaxation
      = s.buffer_relaxation ∧
    (callStep interpIC interpCI isnanP J csqrt s u0 udir).2.L = s.L ∧
    (callStep interpIC interpCI isnanP J csqrt s u0 udir).2.z0 = s.z0 ∧
    (callStep interpIC interpCI isnanP J csqrt s u0 udir).2.l = s.l ∧
    (callStep interpIC interpCI isnanP J csqrt s u0 udir).2.ig_dtaux = s.ig_dtaux ∧
    (callStep interpIC interpCI isnanP J csqrt s u0 udir).2.ig_dtauy = s.ig_dtauy :=
  ⟨rfl, rfl, rfl, rfl, rfl, rfl, rfl, rfl, rfl, rfl, rfl, rfl, rfl, rfl, rfl, rfl, rfl⟩

/-- C10: on a freshly constructed object, before any invocation, `get_shear`
raises `KeyError: 'dtaux'` — `__init__` stores only the keys `x`, `y`, `z`
into `self.igrid` (shear.py lines 63-65), so the first lookup of line 129
fails; no default, empty or stale arrays are returned. -/
theorem get_shear_before_first_call {nyI nxI : ℕ} (x y z : Mat nyI nxI)
    (dx dy buffer_width : ℝ) (buffer_relaxation : Option ℝ) (L z0 l : ℝ) :
    getShearStep (windShearInit x y z dx dy buffer_width buffer_relaxation L z0 l).state
      = Except.error (PyErr.keyError PyName.dtaux) :=
  rfl

/-- C4 counterexample: rotating the point `(origin_x + 1, origin_y)` by `+90`
degrees does NOT yield `(origin_x, origin_y + 1)`.  With origin `(0, 0)` and
the 1×1 arrays `x = [[1]]`, `y = [[0]]`, the source returns `([[0]], [[-1]])`,
not the claimed `([[0]], [[1]])`. -/
theorem rotate_plus90_counterexample :
    ¬ ((rotate (fun _ _ => (1 : ℝ)) (fun _ _ => 0) 90 (0, 0) : Mat 1 1 × Mat 1 1)
        = (fun _ _ => 0, fun _ _ => 1)) := by
  intro h
  have h2 := congrFun (congrFun (congrArg Prod.snd h) 0) 0
  simp only [rotate] at h2
  rw [show (90 : ℝ) / 180 * Real.pi = Real.pi / 2 by ring] at h2
  rw [Real.sin_pi_div_two, Real.cos_pi_div_two] at h2
  norm_num at h2

/-- C4 (amended): `rotate` is a pure, shape-preserving map (the type records
that both returned arrays have the arguments' shape), but it applies the
standard 2D rotation matrix AT ANGLE `-alpha` about the origin — i.e. degrees
CLOCKWISE positive (the source multiplies row vectors on the left of `R`,
which is the transpose action): rotating the point
`(origin_x + 1, origin_y)` by `+90` degrees yields `(origin_x, origin_y - 1)`. -/
theorem rotate_spec {m n : ℕ} (x y : Mat m n) (alpha : ℝ) (o : ℝ × ℝ) :
    (∀ i j,
      (rotate x y alpha o).1 i j
        = o.1 + ((x i j - o.1) * Real.cos (-(alpha / 180 * Real.pi))
            - (y i j - o.2) * Real.sin (-(alpha / 180 * Real.pi))) ∧
      (rotate x y alpha o).2 i j
        = o.2 + ((x i j - o.1) * Real.sin (-(alpha / 180 * Real.pi))
            + (y i j - o.2) * Real.cos (-(alpha / 180 * Real.pi)))) ∧
    rotate (fun _ _ => o.1 + 1) (fun _ _ => o.2) 90 o
      = ((fun _ _ => o.1, fun _ _ => o.2 - 1) : Mat m n × Mat m n) := by
  constructor
  · intro i j
    constructor
    · show (x i j - o.1) * Real.cos (alpha / 180 * Real.pi)
          + (y i j - o.2) * Real.sin (alpha / 180 * Real.pi) + o.1 = _
      rw [Real.cos_neg, Real.sin_neg]
      ring
    · show (x i j - o.1) * (-Real.sin (alpha / 180 * Real.pi))
          + (y i j - o.2) * Real.cos (alpha / 180 * Real.pi) + o.2 = _
      rw [Real.cos_neg, Real.sin_neg]
      ring
  · unfold rotate
    rw [show (90 : ℝ) / 180 * Real.pi = Real.pi / 2 by ring]
    rw [Real.sin_pi_div_two, Real.cos_pi_div_two]
    refine Prod.ext ?_ ?_ <;> funext i j <;> ring

/-- C7 (code bug): the direction dependence of the solver is 360-degree
periodic by trigonometric periodicity alone — `rotate` at `theta + 360` equals
`rotate` at `theta` (no modulo normalization anywhere in the source), and a
full `__call__` invocation at `theta + 360` returns exactly the same result
and state as at `theta`.  (As the source stands, that common result is the
`NameError` raised at shear.py line 160 with the cgrid writes of lines
151-153; identical shear-perturbation OUTPUTS are never produced, see C1.) -/
theorem call_periodic_360 (theta : ℝ) :
    (∀ (m n : ℕ) (x y : Mat m n) (o : ℝ × ℝ),
        rotate x y (theta + 360) o = rotate x y theta o) ∧
    (∀ (nyI nxI nyC nxC : ℕ) (interpIC : InterpIC nyI nxI nyC nxC)
        (interpCI : InterpCI nyI nxI nyC nxC) (isnanP : IsNanP nyC nxC)
        (J : ℕ → ℂ → ℂ) (csqrt : ℂ → ℂ) (s : ShearState nyI nxI nyC nxC) (u0 : ℝ),
        callStep interpIC interpCI isnanP J csqrt s u0 (theta + 360)
          = callStep interpIC interpCI isnanP J csqrt s u0 theta) := by
  have hrot : ∀ (m n : ℕ) (x y : Mat m n) (o : ℝ × ℝ),
      rotate x y (theta + 360) o = rotate x y theta o := by
    intro m n x y o
    have ha : (theta + 360) / 180 * Real.pi = theta / 180 * Real.pi + 2 * Real.pi := by
      ring
    unfold rotate
    rw [ha, Real.cos_add_two_pi, Real.sin_add_two_pi]
  refine ⟨hrot, ?_⟩
  intro nyI nxI nyC nxC interpIC interpCI isnanP J csqrt s u0
  have hp : populateStep interpIC isnanP s (theta + 360)
      = populateStep interpIC isnanP s theta := by
    unfold populateStep
    rw [hrot]
  unfold callStep
  rw [hp]
  rfl

/-- C5 counterexample: on the concrete 3×3 grid `ex3`, `get_borders` differs
from the claimed ordered sequence (the claim's left column runs rows
`ny-2 .. 1` bottom to top, the source's slice `x[-1:1:-1,0]` runs rows
`ny-1 .. 2`, repeating the bottom-left corner and omitting row 1), and its
length is 9, not `2*(ny+nx) - 4 = 8`. -/
theorem get_borders_counterexample :
    get_borders 3 3 ex3 ≠ get_bordersClaim 3 3 ex3 ∧
    (get_borders 3 3 ex3).length ≠ 2 * (3 + 3) - 4 := by
  decide

/-- C5 (amended): for every `(ny, nx)` input with `ny ≥ 2`, `nx ≥ 2`,
`get_borders` returns the outer ring flattened into a single closed ordered
sequence of length `2*(ny+nx) - 3`: top row left to right (positions
`0 .. nx-1`), right column top to bottom excluding corners (rows `1 .. ny-2`),
bottom row right to left, then column 0 from the BOTTOM ROW upward to row 2 —
repeating the bottom-left corner and excluding row 1 — closing with the first
point repeated at the last position. -/
theorem get_borders_spec {α : Type} (ny nx : ℕ) (hny : 2 ≤ ny) (hnx : 2 ≤ nx)
    (x : ℕ → ℕ → α) :
    (get_borders ny nx x).length = 2 * (ny + nx) - 3 ∧
    (∀ j, j < nx → (get_borders ny nx x)[j]? = some (x 0 j)) ∧
    (∀ i, i < ny - 2 → (get_borders ny nx x)[nx + i]? = some (x (i + 1) (nx - 1))) ∧
    (∀ j, j < nx →
      (get_borders ny nx x)[nx + (ny - 2) + j]? = some (x (ny - 1) (nx - 1 - j))) ∧
    (∀ i, i < ny - 2 →
      (get_borders ny nx x)[2 * nx + (ny - 2) + i]? = some (x (ny - 1 - i) 0)) ∧
    (get_borders ny nx x)[2 * nx + 2 * (ny - 2)]? = some (x 0 0) := by
  refine ⟨?_, ?_, ?_, ?_, ?_, ?_⟩
  · simp only [get_borders, List.length_append, List.length_map, List.length_range,
      List.length_singleton]
    omega
  · intro j hj
    unfold get_borders
    rw [List.getElem?_append_left
      (by simp only [List.length_map, List.length_range]; omega)]
    simp [List.getElem?_range, hj]
  · intro i hi
    unfold get_borders
    rw [List.getElem?_append_right
      (by simp only [List.length_map, List.length_range]; omega)]
    simp only [List.length_map, List.length_range]
    rw [show nx + i - nx = i from by omega]
    rw [List.getElem?_append_left
      (by simp only [List.length_map, List.length_range]; omega)]
    simp [List.getElem?_range, hi]
  · intro j hj
    unfold get_borders
    rw [List.getElem?_append_right
      (by simp only [List.length_map, List.length_range]; omega)]
    simp only [List.length_map, List.length_range]
    rw [show nx + (ny - 2) + j - nx = (ny - 2) + j from by omega]
    rw [List.getElem?_append_right
      (by simp only [List.length_map, List.length_range]; omega)]
    simp only [List.length_map, List.length_range]
    rw [show ny - 2 + j - (ny - 2) = j from by omega]
    rw [List.getElem?_append_left
      (by simp only [List.length_map, List.length_range]; omega)]
    simp [List.getElem?_range, hj]
  · intro i hi
    unfold get_borders
    rw [List.getElem?_append_right
      (by simp only [List.length_map, List.length_range]; omega)]
    simp only [List.length_map, List.length_range]
    rw [show 2 * nx + (ny - 2) + i - nx = (ny - 2) + (nx + i) from by omega]
    rw [List.getElem?_append_right
      (by simp only [List.length_map, List.length_range]; omega)]
    simp only [List.length_map, List.length_range]
    rw [show ny - 2 + (nx + i) - (ny - 2) = nx + i from by omega]
    rw [List.getElem?_append_right
      (by simp only [List.length_map, List.length_range]; omega)]
    simp only [List.length_map, List.length_range]
    rw [show nx + i - nx = i from by omega]
    rw [List.getElem?_append_left
      (by simp only [List.length_map, List.length_range]; omega)]
    simp [List.getElem?_range, hi]
  · unfold get_borders
    rw [List.getElem?_append_right
      (by simp only [List.length_map, List.length_range]; omega)]
    simp only [List.length_map, List.length_range]
    rw [show 2 * nx + 2 * (ny - 2) - nx = (ny - 2) + (nx + (ny - 2)) from by omega]
    rw [List.getElem?_append_right
      (by simp only [List.length_map, List.length_range]; omega)]
    simp only [List.length_map, List.length_range]
    rw [show ny - 2 + (nx + (ny - 2)) - (ny - 2) = nx + (ny - 2) from by omega]
    rw [List.getElem?_append_right
      (by simp only [List.length_map, List.length_range]; omega)]
    simp only [List.length_map, List.length_range]
    rw [show nx + (ny - 2) - nx = ny - 2 from by omega]
    rw [List.getElem?_append_right
      (by simp only [List.length_map, List.length_range]; omega)]
    simp only [List.length_map, List.length_range]
    rw [show ny - 2 - (ny - 2) = 0 from by omega]
    rfl

/-- C5 witness: the amended description evaluated on the concrete 2×2 grid
`ex2` (borders `[0, 1, 3, 2, 0]`, length `5 = 2*(2+2) - 3`). -/
theorem get_borders_spec_witness :
    2 ≤ 2 ∧
    ((get_borders 2 2 ex2).length = 2 * (2 + 2) - 3 ∧
     (∀ j, j < 2 → (get_borders 2 2 ex2)[j]? = some (ex2 0 j)) ∧
     (∀ i, i < 2 - 2 → (get_borders 2 2 ex2)[2 + i]? = some (ex2 (i + 1) (2 - 1))) ∧
     (∀ j, j < 2 →
       (get_borders 2 2 ex2)[2 + (2 - 2) + j]? = some (ex2 (2 - 1) (2 - 1 - j))) ∧
     (∀ i, i < 2 - 2 →
       (get_borders 2 2 ex2)[2 * 2 + (2 - 2) + i]? = some (ex2 (2 - 1 - i) 0)) ∧
     (get_borders 2 2 ex2)[2 * 2 + 2 * (2 - 2)]? = some (ex2 0 0)) :=
  ⟨by decide, get_borders_spec 2 2 (by decide) (by decide) ex2⟩

/-- C6 counterexample: at the default parameters (`buffer_width = 100`,
`buffer_relaxation = 100/4 = 25`) the sigmoid at distance 0 is
`1/(1 + exp(-4)) ≈ 0.982`: it is smaller than `0.999`, hence not equal to
`1.0` even to generous floating-point tolerance. -/
theorem get_sigmoid_at_zero_counterexample :
    get_sigmoid 100 25 0 < 999 / 1000 ∧ get_sigmoid 100 25 0 ≠ 1 := by
  have hexp4 : Real.exp 4 < 999 := by
    have h1 : Real.exp 4 = Real.exp 1 ^ (4 : ℕ) := by
      rw [← Real.exp_nat_mul]
      norm_num
    have h2 : Real.exp 1 ^ (4 : ℕ) < 2.7182818286 ^ (4 : ℕ) :=
      pow_lt_pow_left₀ Real.exp_one_lt_d9 (le_of_lt (Real.exp_pos 1)) (by norm_num)
    have h3 : (2.7182818286 : ℝ) ^ (4 : ℕ) < 999 := by norm_num
    calc Real.exp 4 = Real.exp 1 ^ (4 : ℕ) := h1
      _ < 2.7182818286 ^ (4 : ℕ) := h2
      _ < 999 := h3
  have hlow : (1 : ℝ) / 999 < Real.exp (-4) := by
    rw [Real.exp_neg]
    have h := one_div_lt_one_div_of_lt (Real.exp_pos 4) hexp4
    rwa [one_div (Real.exp 4)] at h
  have hval : get_sigmoid 100 25 0 = 1 / (1 + Real.exp (-4)) := by
    unfold get_sigmoid
    norm_num
  have hmain : get_sigmoid 100 25 0 < 999 / 1000 := by
    rw [hval]
    have hden : (1000 : ℝ) / 999 < 1 + Real.exp (-4) := by
      have he : (1000 : ℝ) / 999 = 1 + 1 / 999 := by norm_num
      rw [he]
      linarith
    have h := one_div_lt_one_div_of_lt (by norm_num : (0 : ℝ) < 1000 / 999) hden
    calc 1 / (1 + Real.exp (-4)) < 1 / ((1000 : ℝ) / 999) := h
      _ = 999 / 1000 := by norm_num
  exact ⟨hmain, ne_of_lt (lt_trans hmain (by norm_num))⟩

/-- C6 (amended): `get_sigmoid` computes
`1/(1 + exp(-(buffer_width - d)/buffer_relaxation))` for every distance `d`;
for every positive relaxation it is strictly monotonically decreasing, equals
`1/2` at `d = buffer_width`, tends to `0` as `d` tends to infinity, and at
`d = 0` equals `1/(1 + exp(-buffer_width/buffer_relaxation))`, which is
strictly LESS than 1 (it only approaches 1 for `buffer_width` much larger
than `buffer_relaxation`; with the defaults it is ≈ 0.982, see the
counterexample). -/
theorem get_sigmoid_spec (W R : ℝ) (hR : 0 < R) :
    (∀ d, get_sigmoid W R d = 1 / (1 + Real.exp (-(W - d) / R))) ∧
    StrictAnti (get_sigmoid W R) ∧
    get_sigmoid W R W = 1 / 2 ∧
    Filter.Tendsto (get_sigmoid W R) Filter.atTop (nhds 0) ∧
    get_sigmoid W R 0 = 1 / (1 + Real.exp (-W / R)) ∧
    get_sigmoid W R 0 < 1 := by
  refine ⟨fun d => rfl, ?_, ?_, ?_, ?_, ?_⟩
  · intro a b hab
    unfold get_sigmoid
    apply one_div_lt_one_div_of_lt
    · positivity
    · have hexp : Real.exp (-(W - a) / R) < Real.exp (-(W - b) / R) := by
        rw [Real.exp_lt_exp, neg_sub, neg_sub]
        exact (div_lt_div_iff_of_pos_right hR).mpr (by linarith)
      linarith
  · unfold get_sigmoid
    rw [sub_self]
    norm_num
  · have heq : get_sigmoid W R = fun d => (1 + Real.exp ((d - W) / R))⁻¹ := by
      funext d
      unfold get_sigmoid
      rw [neg_sub, one_div]
    rw [heq]
    apply Filter.Tendsto.inv_tendsto_atTop
    apply Filter.tendsto_atTop_add_const_left
    apply Real.tendsto_exp_atTop.comp
    apply Filter.Tendsto.atTop_div_const hR
    exact Filter.tendsto_atTop_add_const_right _ _ Filter.tendsto_id
  · unfold get_sigmoid
    rw [sub_zero]
  · unfold get_sigmoid
    rw [div_lt_one (by positivity)]
    linarith [Real.exp_pos (-(W - 0) / R)]

/-- C6 witness: the amended properties at the default buffer parameters
`buffer_width = 100`, `buffer_relaxation = 25`. -/
theorem get_sigmoid_spec_witness :
    (0 : ℝ) < 25 ∧
    ((∀ d, get_sigmoid 100 25 d = 1 / (1 + Real.exp (-(100 - d) / 25))) ∧
     StrictAnti (get_sigmoid 100 25) ∧
     get_sigmoid 100 25 100 = 1 / 2 ∧
     Filter.Tendsto (get_sigmoid 100 25) Filter.atTop (nhds 0) ∧
     get_sigmoid 100 25 0 = 1 / (1 + Real.exp (-100 / 25)) ∧
     get_sigmoid 100 25 0 < 1) :=
  ⟨by norm_num, get_sigmoid_spec 100 25 (by norm_num)⟩

/-- Helper for C9: every entry of a `np.fft.fftfreq(n+1, d)` axis other than
index 0 is nonzero (indices `1 .. n` are what survives the `[1:]` drop). -/
theorem fftfreq_succ_ne_zero (n : ℕ) (d : ℝ) (hd : d ≠ 0) (m : ℕ) (hm1 : 1 ≤ m)
    (hmn : m ≤ n) : fftfreq (n + 1) d m ≠ 0 := by
  unfold fftfreq
  apply div_ne_zero
  · rw [Int.cast_ne_zero]
    unfold fftfreqIdx
    split_ifs with h
    · omega
    · omega
  · exact mul_ne_zero (by exact_mod_cast Nat.succ_ne_zero n) hd

/-- C9: on the wavenumber grid built by `compute_shear` (zero-frequency entry
dropped), every entry of `kx` and of `ky` is nonzero, hence `kx²` is nonzero,
`k = sqrt(kx² + ky²)` is strictly positive, and the unguarded divisions by `k`
and by `kx²` in the spectral formulas (shear.py lines 195-199) never divide by
zero: the singular line `kx = 0` does not occur on the constructed grid. -/
theorem wavenumber_grid_nonsingular (ny nx : ℕ) (dx dy : ℝ) (hdx : 0 < dx)
    (hdy : 0 < dy) (i : Fin ny) (j : Fin nx) :
    kxMat ny nx dx i j ≠ 0 ∧ kyMat ny nx dy i j ≠ 0 ∧
    (kxMat ny nx dx i j) ^ 2 ≠ 0 ∧ 0 < kMat ny nx dx dy i j ∧
    kMat ny nx dx dy i j ≠ 0 := by
  have hnx : 0 < nx := j.pos
  have hny : 0 < ny := i.pos
  have hjx := j.isLt
  have hiy := i.isLt
  have hdx2 : (2 * Real.pi / (dx * (nx : ℝ))) ≠ 0 := by
    apply div_ne_zero
    · positivity
    · exact ne_of_gt (mul_pos hdx (by exact_mod_cast hnx))
  have hdy2 : (2 * Real.pi / (dy * (ny : ℝ))) ≠ 0 := by
    apply div_ne_zero
    · positivity
    · exact ne_of_gt (mul_pos hdy (by exact_mod_cast hny))
  have hkx : kxMat ny nx dx i j ≠ 0 := by
    unfold kxMat
    exact fftfreq_succ_ne_zero nx _ hdx2 ((j : ℕ) + 1) (by omega) (by omega)
  have hky : kyMat ny nx dy i j ≠ 0 := by
    unfold kyMat
    exact fftfreq_succ_ne_zero ny _ hdy2 ((i : ℕ) + 1) (by omega) (by omega)
  have hk : 0 < kMat ny nx dx dy i j := by
    unfold kMat
    apply Real.sqrt_pos.mpr
    exact add_pos_of_pos_of_nonneg (pow_two_pos_of_ne_zero hkx)
      (sq_nonneg (kyMat ny nx dy i j))
  exact ⟨hkx, hky, pow_ne_zero 2 hkx, hk, ne_of_gt hk⟩

/-- C9 witness: the nonsingularity facts on the concrete 1×1 grid with unit
spacings. -/
theorem wavenumber_grid_nonsingular_witness :
    (0 : ℝ) < 1 ∧
    (kxMat 1 1 1 0 0 ≠ 0 ∧ kyMat 1 1 1 0 0 ≠ 0 ∧ (kxMat 1 1 1 0 0) ^ 2 ≠ 0 ∧
     0 < kMat 1 1 1 1 0 0 ∧ kMat 1 1 1 1 0 0 ≠ 0) :=
  ⟨one_pos, wavenumber_grid_nonsingular 1 1 1 1 one_pos one_pos 0 0⟩

/-- C2: for every nonzero free-stream speed, `compute_shear` takes the
spectral branch, whose wavenumber arrays are the `(n+1)`-point
discrete-Fourier frequency axes with sample spacing `2*pi/(spacing*count)`
and the zero-frequency entry (index 0, value 0) dropped, and whose outputs
are exactly the real parts of the inverse 2D FFT of the two spectra as the
claim states them (`dtaux_tClaim`, `dtauy_tClaim`, written from the claim
text); the source's left-to-right grouping (`dtaux_t`, `dtauy_t`) agrees with
the claim's grouping for every Bessel-function routine `J` and complex square
root `csqrt`. -/
theorem compute_shear_spectral_spec {ny nx : ℕ} (z : Mat ny nx) (dx dy L z0 l : ℝ)
    (J : ℕ → ℂ → ℂ) (csqrt : ℂ → ℂ) (u0 : ℝ) (hu : u0 ≠ 0) :
    (∀ (i : Fin ny) (j : Fin nx),
      kxMat ny nx dx i j
        = fftfreq (nx + 1) (2 * Real.pi / (dx * (nx : ℝ))) ((j : ℕ) + 1) ∧
      kyMat ny nx dy i j
        = fftfreq (ny + 1) (2 * Real.pi / (dy * (ny : ℝ))) ((i : ℕ) + 1) ∧
      fftfreq (nx + 1) (2 * Real.pi / (dx * (nx : ℝ))) 0 = 0) ∧
    compute_shear z dx dy L z0 l J csqrt u0 =
      (fun i j => (ifft2 (dtaux_tClaim z dx dy L z0 l J csqrt u0) i j).re,
       fun i j => (ifft2 (dtauy_tClaim z dx dy L z0 l J csqrt u0) i j).re) := by
  have hsigma : sigmaMat ny nx csqrt L z0 l dx = sigmaMatClaim ny nx csqrt L z0 l dx := by
    funext i j
    unfold sigmaMat sigmaMatClaim
    congr 1
    ring
  have hx : dtaux_t z dx dy L z0 l J csqrt u0 = dtaux_tClaim z dx dy L z0 l J csqrt u0 := by
    unfold dtaux_t dtaux_tClaim
    rw [hsigma]
    funext i j
    push_cast
    ring
  have hy : dtauy_t z dx dy L z0 l J csqrt u0 = dtauy_tClaim z dx dy L z0 l J csqrt u0 := by
    unfold dtauy_t dtauy_tClaim
    rw [hsigma]
    funext i j
    ring
  refine ⟨fun i j => ⟨rfl, rfl, ?_⟩, ?_⟩
  · unfold fftfreq fftfreqIdx
    rw [if_pos (by omega)]
    simp
  · unfold compute_shear
    rw [if_neg hu, hx, hy]

/-- C2 witness: the spectral-branch equality evaluated on the 1×1 grid `zW`
with unit spacings, the default model parameters, `u0 = 1`, and the concrete
routines `jW`, `csW`. -/
theorem compute_shear_spectral_spec_witness :
    (1 : ℝ) ≠ 0 ∧
    ((∀ (i : Fin 1) (j : Fin 1),
       kxMat 1 1 1 i j
         = fftfreq (1 + 1) (2 * Real.pi / (1 * ((1 : ℕ) : ℝ))) ((j : ℕ) + 1) ∧
       kyMat 1 1 1 i j
         = fftfreq (1 + 1) (2 * Real.pi / (1 * ((1 : ℕ) : ℝ))) ((i : ℕ) + 1) ∧
       fftfreq (1 + 1) (2 * Real.pi / (1 * ((1 : ℕ) : ℝ))) 0 = 0) ∧
     compute_shear zW 1 1 100 (1 / 1000) 10 jW csW 1 =
       (fun i j => (ifft2 (dtaux_tClaim zW 1 1 100 (1 / 1000) 10 jW csW 1) i j).re,
        fun i j => (ifft2 (dtauy_tClaim zW 1 1 100 (1 / 1000) 10 jW csW 1) i j).re)) :=
  ⟨one_ne_zero, compute_shear_spectral_spec zW 1 1 100 (1 / 1000) 10 jW csW 1 one_ne_zero⟩

end AeolisShear
